import Mathlib

/-!
Verification development for the workout-data-pipeline repository.

The pipeline reads workout export files (CSV rows with string-typed fields),
normalizes fields (duration parsing, numeric coercion, pace), deduplicates
against previously stored rows, persists records, mirrors the data to a
spreadsheet view, and optionally emails a run summary.

Modelling conventions:
- Python strings that are parsed character by character are `List Char`;
  opaque labels (activity types, filenames, column names) are `String`.
- Python floats are modelled as `ℚ` (exact arithmetic).
- A Python exception is modelled as `none` of an `Option` result.
- pandas `NaN` (the result of `pd.to_numeric(..., errors="coerce")` on a
  non-numeric string) is modelled as `none`.
-/

namespace WDP

/-- Characters stripped by Python `int()` / `float()` before parsing. -/
def isSpaceChar (c : Char) : Bool :=
  c = (' ') || c = ('\t') || c = ('\n') || c = ('\r')

/-- Strip leading and trailing whitespace, as Python numeric parsing does. -/
def stripChars (s : List Char) : List Char :=
  ((s.dropWhile isSpaceChar).reverse.dropWhile isSpaceChar).reverse

/-- Value of a (nonempty, all-digit) digit run; 0 on the empty list. -/
def digitsVal (s : List Char) : Nat :=
  s.foldl (fun a c => 10 * a + (c.toNat - 48)) 0

/-- Parse a nonempty all-digit run to a natural number; `none` otherwise. -/
def natDigits (s : List Char) : Option Nat :=
  if s = [] then none
  else if s.all (fun c => c.isDigit) then some (digitsVal s) else none

/-- Model of Python `int(t)` on a string: optional sign, then a nonempty
digit run, with surrounding whitespace allowed (underscore separators and
other exotic syntax are out of scope for the inputs this pipeline handles). -/
def pyInt (s : List Char) : Option Int :=
  match stripChars s with
  | ('-') :: rest => (natDigits rest).map (fun n => -(n : Int))
  | ('+') :: rest => (natDigits rest).map (fun n => (n : Int))
  | rest => (natDigits rest).map (fun n => (n : Int))

/-- Split a character list on a separator character, Python `str.split(sep)`:
the result is always nonempty, and empty components are preserved. -/
def splitOnChar (sep : Char) : List Char → List (List Char)
  | [] => [[]]
  | c :: cs =>
    let r := splitOnChar sep cs
    if c = sep then [] :: r
    else (c :: r.headD []) :: r.tail

/-- Model of `x.split(':')` from the duration-parsing lambda. -/
def splitOnColon (s : List Char) : List (List Char) := splitOnChar (':') s

/-- The source's duration accumulation,
`sum(int(t) * 60**i for i, t in enumerate(reversed(x.split(':'))))`,
expressed on the already-reversed list of component values:
`sumEnum [v0, v1, ...] = v0 * 60^0 + v1 * 60^1 + ...`. -/
def sumEnum : List Int → Int
  | [] => 0
  | v :: rest => v + 60 * sumEnum rest

/-- Effectful map over a list, short-circuiting on the first failure — the
behaviour of a Python loop or generator whose body may raise. -/
def optMapM {α β : Type} (f : α → Option β) : List α → Option (List β)
  | [] => some []
  | a :: as => do
    let b ← f a
    let bs ← optMapM f as
    some (b :: bs)

/-- Duration parser of `data_pipeline.insert_workouts` /
`WorkoutDataProcessor.process_workout_data`:
`lambda x: sum(int(t) * 60**i for i, t in enumerate(reversed(x.split(':'))))`.
A component on which `int` raises makes the whole parse fail. -/
def parseDuration (s : List Char) : Option Int :=
  match optMapM pyInt (splitOnColon s) with
  | some vs => some (sumEnum vs.reverse)
  | none => none

/-- Spec-side definition (for comparison with `parseDuration`): a
colon-separated clock string read as a positional base-60 number, Horner
form from the left. -/
def posBase60 (vs : List Int) : Int :=
  vs.foldl (fun a v => 60 * a + v) 0

/-- Join components with colons — the inverse of the split, used to state
the duration-parsing claim over arbitrary component lists. -/
def joinColon : List (List Char) → List Char
  | [] => []
  | [p] => p
  | p :: q :: ps => p ++ (':') :: joinColon (q :: ps)

/-- Model of Python `float(t)` / elementwise `pd.to_numeric(errors="coerce")`
on the simple decimal literals this pipeline's CSVs contain: optional sign,
digits with an optional fractional part (at least one digit overall);
anything else coerces to NaN, i.e. `none`. -/
def pyFloatCore (s : List Char) : Option ℚ :=
  match splitOnChar ('.') s with
  | [ip] => (natDigits ip).map (fun n => (n : ℚ))
  | [ip, fp] =>
    if (ip.all (fun c => c.isDigit) && fp.all (fun c => c.isDigit))
        && (!ip.isEmpty || !fp.isEmpty) then
      some ((digitsVal ip : ℚ) + (digitsVal fp : ℚ) / (10 : ℚ) ^ fp.length)
    else none
  | _ => none

/-- Signed decimal parse with whitespace stripping (Python `float`). -/
def pyFloat (s : List Char) : Option ℚ :=
  match stripChars s with
  | ('-') :: rest => (pyFloatCore rest).map (fun q => -q)
  | ('+') :: rest => pyFloatCore rest
  | rest => pyFloatCore rest

/-- Calendar timestamp, the value produced by `pd.to_datetime` on the
ISO-style strings this pipeline's exports contain. -/
structure DateTime where
  year : Nat
  month : Nat
  day : Nat
  hour : Nat
  minute : Nat
  second : Nat
deriving DecidableEq, Repr

/-- Read exactly `n` digits, extending the accumulator positionally. -/
def readDigits : Nat → Nat → List Char → Option (Nat × List Char)
  | 0, acc, s => some (acc, s)
  | _ + 1, _, [] => none
  | n + 1, acc, c :: cs =>
    if c.isDigit then readDigits n (10 * acc + (c.toNat - 48)) cs else none

/-- Consume one expected character. -/
def expectChar (c : Char) : List Char → Option (List Char)
  | [] => none
  | x :: r => if x = c then some r else none

/-- Model of `pd.to_datetime` (default `errors="raise"`) on the ISO-format
subset the exports use: `YYYY-MM-DD`, optionally followed by a space or `T`
and `HH:MM` or `HH:MM:SS`. Any other shape raises, i.e. `none`. -/
def parseTimestamp (s : List Char) : Option DateTime := do
  let (y, r1) ← readDigits 4 0 s
  let r2 ← expectChar ('-') r1
  let (mo, r3) ← readDigits 2 0 r2
  let r4 ← expectChar ('-') r3
  let (d, r5) ← readDigits 2 0 r4
  if mo = 0 || 12 < mo || d = 0 || 31 < d then none else
  match r5 with
  | [] => some ⟨y, mo, d, 0, 0, 0⟩
  | c :: rest =>
    if c = (' ') || c = ('T') then do
      let (h, r6) ← readDigits 2 0 rest
      let r7 ← expectChar (':') r6
      let (mi, r8) ← readDigits 2 0 r7
      if 23 < h || 59 < mi then none else
      match r8 with
      | [] => some ⟨y, mo, d, h, mi, 0⟩
      | c2 :: rest2 => do
        let _ ← expectChar (':') (c2 :: rest2)
        let (sec, r9) ← readDigits 2 0 rest2
        if 59 < sec || !r9.isEmpty then none else some ⟨y, mo, d, h, mi, sec⟩
    else none

/-- Round a rational to the nearest integer, ties to even — the behaviour of
Python `round` (modelled on exact values; the source operates on binary
floats, whose representation error is outside this model's scope). -/
def halfEven (x : ℚ) : ℤ :=
  if x - (⌊x⌋ : ℚ) = 1 / 2 then (if ⌊x⌋ % 2 = 0 then ⌊x⌋ else ⌊x⌋ + 1)
  else round x

/-- Model of Python `round(v, 2)`. -/
def pyRound2 (x : ℚ) : ℚ := ((halfEven (100 * x) : ℤ) : ℚ) / 100

/-- One raw CSV row of a workout export, string-typed columns
`Start`, `End`, `Type`, `Duration`, `Distance (mi)`, `Active Energy (kcal)`. -/
structure RawRow where
  rStart : List Char
  rEnd : List Char
  rType : String
  rDuration : List Char
  rDistance : List Char
  rEnergy : List Char
deriving DecidableEq, Repr

/-- A normalized workout record as produced by
`WorkoutDataProcessor.process_workout_data` for one row: parsed timestamps,
duration in seconds, coerced numerics (`none` = NaN) and the derived pace. -/
structure NormRow where
  name : String
  start : DateTime
  endT : DateTime
  energy : Option ℚ
  duration : Int
  distance : Option ℚ
  pace : Option ℚ
deriving DecidableEq, Repr

/-- The pace computation of `data_processor.py` lines 43-48:
`round(row["Duration"] / 60 / row["Distance (mi)"], 2) if
row["Distance (mi)"] > 0 else None`. A NaN distance compares false
with 0, so it also yields `None`. -/
def paceOf (duration : Int) (distance : Option ℚ) : Option ℚ :=
  match distance with
  | some d => if 0 < d then some (pyRound2 ((duration : ℚ) / 60 / d)) else none
  | none => none

/-- Row-level normalization of `WorkoutDataProcessor.process_workout_data`
(`data_processor.py` lines 28-48). The source converts column by column
(`pd.to_datetime` on `Start` and `End`, `pd.to_numeric(errors="coerce")` on
the numeric columns, the base-60 lambda on `Duration`); every conversion is
elementwise, so the per-row composition below succeeds on exactly the rows
on which the column-wise pass does, with the same values. A timestamp or
duration parse failure raises (`none`); numeric coercion never fails. -/
def normalizeRow (r : RawRow) : Option NormRow := do
  let s ← parseTimestamp r.rStart
  let e ← parseTimestamp r.rEnd
  let energy := pyFloat r.rEnergy
  let dist := pyFloat r.rDistance
  let dur ← parseDuration r.rDuration
  some ⟨r.rType, s, e, energy, dur, dist, paceOf dur dist⟩

/-! ## Local-folder pipeline (`data_pipeline.py`) -/

/-- One row of the `workouts` table as written by
`data_pipeline.insert_workouts`: columns `name, start_time, end_time,
activeEnergyBurned, duration, distance`. Also the shape of a preprocessed
DataFrame row fed to the insert loop. -/
structure PRow where
  name : String
  start : DateTime
  endT : DateTime
  energy : Option ℚ
  duration : Int
  distance : Option ℚ
deriving DecidableEq, Repr

/-- Preprocessing of one row in `insert_workouts` (`data_pipeline.py` lines
130-135): timestamps parsed (raising on failure), numerics coerced to NaN on
failure, duration parsed by the base-60 lambda (raising on failure). The
source applies each conversion to the whole column; each is elementwise, so
any row failing makes the whole call raise — `insert_workouts` therefore
`mapM`s this over the rows. -/
def procRow (r : RawRow) : Option PRow := do
  let s ← parseTimestamp r.rStart
  let e ← parseTimestamp r.rEnd
  let dur ← parseDuration r.rDuration
  some ⟨r.rType, s, e, pyFloat r.rEnergy, dur, pyFloat r.rDistance⟩

/-- Vectorized preprocessing of `insert_workouts`: all rows must convert,
otherwise the whole call raises (`none`). -/
def preprocess (rows : List RawRow) : Option (List PRow) :=
  optMapM procRow rows

/-- Body of the insert loop of `insert_workouts` (`data_pipeline.py` lines
139-164): `SELECT 1 FROM workouts WHERE start_time = :start_time AND name =
:name`; insert only when that finds nothing. Returns the new table contents
and whether the row was inserted. The check and the insert happen inside the
single `engine.begin()` transaction of the call, and in this sequential
model the whole step is one atomic operation. -/
def insertStep (store : List PRow) (r : PRow) : List PRow × Bool :=
  if store.any (fun w => decide (w.start = r.start) && decide (w.name = r.name)) then
    (store, false)
  else (store ++ [r], true)

/-- `data_pipeline.insert_workouts`: preprocess all rows, then run the
dedupe-checked insert loop, counting inserted rows. `none` models the call
raising on a parse failure (in which case the transaction commits nothing). -/
def insert_workouts (store : List PRow) (rows : List RawRow) :
    Option (List PRow × Nat) :=
  (preprocess rows).map (fun prs =>
    prs.foldl
      (fun acc r =>
        let step := insertStep acc.1 r
        (step.1, if step.2 then acc.2 + 1 else acc.2))
      (store, 0))

/-- A source file: its name and its raw CSV rows. -/
structure SrcFile where
  fname : String
  rows : List RawRow
deriving DecidableEq, Repr

/-- Accumulated pipeline state while `process_workout_files` iterates over
the folder: the `workouts` table, the `processed_files` table (filename and
`records_inserted`), the three counters it prints, the names of the files
whose contents were actually read (`pd.read_csv`), and the files whose
processing raised and was caught. -/
structure RunAcc where
  store : List PRow
  markers : List (String × Nat)
  skipped : Nat
  processedCnt : Nat
  inserted : Nat
  reads : List String
  errs : List String
deriving DecidableEq, Repr

/-- `is_file_processed` (`data_pipeline.py` lines 104-117): a point lookup
of the filename in `processed_files`. -/
def is_file_processed (markers : List (String × Nat)) (fname : String) : Bool :=
  markers.any (fun m => decide (m.1 = fname))

/-- One iteration of the folder loop of `process_workout_files`
(`data_pipeline.py` lines 179-202): skip the file without reading it when it
is already marked processed; otherwise count it as processed, read it, run
`insert_workouts`, and either mark it processed with its insert count or —
when anything raised — log the error and continue. -/
def processOneFile (acc : RunAcc) (f : SrcFile) : RunAcc :=
  if is_file_processed acc.markers f.fname then
    { acc with skipped := acc.skipped + 1 }
  else
    let acc1 := { acc with
      processedCnt := acc.processedCnt + 1
      reads := acc.reads ++ [f.fname] }
    match insert_workouts acc1.store f.rows with
    | some (st, k) =>
      { acc1 with
        store := st
        inserted := acc1.inserted + k
        markers := acc1.markers ++ [(f.fname, k)] }
    | none => { acc1 with errs := acc1.errs ++ [f.fname] }

/-! ## Mirror publisher -/

/-- One spreadsheet cell after the source's JSON-compatibility conversions:
strings, stringified timestamps, numbers, or the empty string that
`fillna("")` substitutes for NaN/None. -/
inductive Cell where
  | str (s : String)
  | dt (t : DateTime)
  | num (q : ℚ)
  | intg (n : Int)
  | empty
deriving DecidableEq, Repr

/-- An external spreadsheet view: a list of rows of cells. -/
abbrev View : Type := List (List Cell)

/-- Render an optional numeric as a cell (`fillna("")`). -/
def optCell (q : Option ℚ) : Cell :=
  match q with
  | some v => Cell.num v
  | none => Cell.empty

/-- Header row of the `workouts` mirror, the column list of the insert. -/
def headerCells : List Cell :=
  [Cell.str ("name"), Cell.str ("start_time"), Cell.str ("end_time"),
   Cell.str ("activeEnergyBurned"), Cell.str ("duration"), Cell.str ("distance")]

/-- Render one stored workout row for the sheet. -/
def rowCells (w : PRow) : List Cell :=
  [Cell.str w.name, Cell.dt w.start, Cell.dt w.endT,
   optCell w.energy, Cell.intg w.duration, optCell w.distance]

/-- Sort key for `ORDER BY start_time`. -/
def dtKey (t : DateTime) : Nat :=
  ((((t.year * 100 + t.month) * 100 + t.day) * 100 + t.hour) * 100 + t.minute)
    * 100 + t.second

/-- Insert into a list sorted by start time (stable). -/
def insertSorted (w : PRow) : List PRow → List PRow
  | [] => [w]
  | x :: xs =>
    if dtKey w.start ≤ dtKey x.start then w :: x :: xs else x :: insertSorted w xs

/-- `SELECT * FROM workouts ORDER BY start_time` ascending. -/
def sortByStart (l : List PRow) : List PRow := l.foldr insertSorted []

/-- The tabular rendering `update_google_sheets` sends: header row plus one
row per stored record, in chronological order. -/
def renderSheet (store : List PRow) : View :=
  headerCells :: (sortByStart store).map rowCells

/-- A Sheets `values().update` of one row starting at column A: the new
cells overwrite the first cells of the old row, cells beyond the written
width survive. -/
def overwriteRow (new old : List Cell) : List Cell :=
  new ++ old.drop new.length

/-- A Sheets `values().update` starting at `A1`: the new block overwrites
the top rows of the prior view; rows of the prior view below the block
survive. -/
def overwrite : View → View → View
  | prior, [] => prior
  | [], n :: ns => n :: overwrite [] ns
  | o :: os, n :: ns => overwriteRow n o :: overwrite os ns

/-- A Sheets `values().clear` over the whole sheet. -/
def clearSheet (_ : View) : View := []

/-- `data_pipeline.update_google_sheets` (lines 44-76): fetch all workouts
ordered by `start_time` and write them starting at `A1` — with no prior
`clear`. -/
def update_google_sheets (store : List PRow) (prior : View) : View :=
  overwrite prior (renderSheet store)

/-- `GoogleServices.update_sheet` (`google_services.py` lines 81-114): clear
the whole sheet, then write the rendered data starting at `A1`. Parametrized
by the already-rendered data block. -/
def update_sheet (prior : View) (sheetData : View) : View :=
  overwrite (clearSheet prior) sheetData

/-- `process_workout_files` (`data_pipeline.py` lines 168-210): fold the
folder loop over the files, print the three counters, then call
`update_google_sheets`. The final sheets call is not wrapped in any
`try`/`except`: when the Sheets transport fails (`sheetOk = false`) the view
is left as it was and the exception propagates to the caller (`raised`).
The counters are printed before that call either way. -/
def process_workout_files (store0 : List PRow) (markers0 : List (String × Nat))
    (prior : View) (sheetOk : Bool) (files : List SrcFile) :
    RunAcc × View × Option Unit :=
  let acc := files.foldl processOneFile ⟨store0, markers0, 0, 0, 0, [], []⟩
  if sheetOk then (acc, update_google_sheets acc.store prior, none)
  else (acc, prior, some ())

/-! ## Notifier (`email_service.py`) -/

/-- The SMTP send inside the `try` of `EmailService.send_email`: succeeds or
raises depending on the transport. -/
def smtpSend (smtpOk : Bool) : Except Unit Unit :=
  if smtpOk then Except.ok () else Except.error ()

/-- `EmailService.send_email` (`email_service.py` lines 16-44): the SMTP
failure is caught inside the function and turned into a log line, so the
function always returns normally (`Except.ok`) whatever the transport does. -/
def send_email (smtpOk : Bool) (_programOutput : String) : Except Unit String :=
  match smtpSend smtpOk with
  | Except.ok _ => Except.ok ("Email sent successfully.")
  | Except.error _ => Except.ok ("Failed to send email")

/-! ## Webhook/API variant (`src/database.py`, `src/api.py`)

`create_workout` receives a raw `dict` payload (no Pydantic validation on
this endpoint), so every key access can fail: a field read with
`workout['k']` / `point['k']` is an `Option` whose absence raises
(`KeyError`), while `.get(...)` chains are total. -/

/-- A `{qty, units}` measurement object. -/
structure Measurement where
  qty : ℚ
  units : String
deriving DecidableEq, Repr

/-- One raw route point of the payload; every field is read with
`point['...']`, so each is optional here and missing ones raise. -/
structure RoutePointPayload where
  timestamp : Option String
  latitude : Option ℚ
  longitude : Option ℚ
  altitude : Option ℚ
  speed : Option ℚ
  speedAccuracy : Option ℚ
  course : Option ℚ
  courseAccuracy : Option ℚ
  horizontalAccuracy : Option ℚ
  verticalAccuracy : Option ℚ
deriving DecidableEq, Repr

/-- One raw workout object of the payload. `id`, `name`, `start`, `end`,
`duration` and `location` are read with `workout['...']` (raising when
missing); the measurements and `route` are read with `.get` and default. -/
structure WorkoutPayload where
  id : Option String
  name : Option String
  start : Option String
  endT : Option String
  duration : Option ℚ
  location : Option String
  distance : Option Measurement
  elevationUp : Option Measurement
  activeEnergyBurned : Option Measurement
  temperature : Option Measurement
  humidity : Option Measurement
  intensity : Option Measurement
  route : List RoutePointPayload
  metadata : String
deriving DecidableEq, Repr

/-- A committed row of the `workouts` table of `database.py` (`id` is the
`TEXT PRIMARY KEY`). -/
structure DbWorkoutRow where
  id : String
  name : String
  start : String
  endT : String
  duration : ℚ
  location : String
  distance_qty : Option ℚ
  distance_units : Option String
  elevation_up_qty : Option ℚ
  elevation_up_units : Option String
  energy_burned_qty : Option ℚ
  energy_burned_units : Option String
  temperature_qty : Option ℚ
  temperature_units : Option String
  humidity_qty : Option ℚ
  humidity_units : Option String
  intensity_qty : Option ℚ
  intensity_units : Option String
  metadata : String
deriving DecidableEq, Repr

/-- A committed row of the `route_points` table. -/
structure DbRouteRow where
  workout_id : String
  timestamp : String
  latitude : ℚ
  longitude : ℚ
  altitude : ℚ
  speed : ℚ
  speed_accuracy : ℚ
  course : ℚ
  course_accuracy : ℚ
  horizontal_accuracy : ℚ
  vertical_accuracy : ℚ
deriving DecidableEq, Repr

/-- The SQLite store of the webhook variant: the two tables created by
`DatabaseManager.init_db`. -/
structure DB where
  workouts : List DbWorkoutRow
  route_points : List DbRouteRow
deriving DecidableEq, Repr

/-- Read a required payload key: `workout['k']` / `point['k']`, raising
(`none`) when absent. -/
def req {α : Type} (v : Option α) : Option α := v

/-- The `INSERT INTO workouts ...` of `store_workout` (`database.py` lines
140-171): required keys are indexed directly (raising on absence), optional
measurements go through total `.get` chains, and the `id TEXT PRIMARY KEY`
constraint raises `IntegrityError` when the id is already stored. -/
def workoutRowOf (existing : List DbWorkoutRow) (w : WorkoutPayload) :
    Option DbWorkoutRow := do
  let i ← req w.id
  let nm ← req w.name
  let st ← req w.start
  let en ← req w.endT
  let du ← req w.duration
  let loc ← req w.location
  if existing.any (fun r => decide (r.id = i)) then none else
  some
    { id := i, name := nm, start := st, endT := en, duration := du,
      location := loc,
      distance_qty := w.distance.map (fun m => m.qty),
      distance_units := w.distance.map (fun m => m.units),
      elevation_up_qty := w.elevationUp.map (fun m => m.qty),
      elevation_up_units := w.elevationUp.map (fun m => m.units),
      energy_burned_qty := w.activeEnergyBurned.map (fun m => m.qty),
      energy_burned_units := w.activeEnergyBurned.map (fun m => m.units),
      temperature_qty := w.temperature.map (fun m => m.qty),
      temperature_units := w.temperature.map (fun m => m.units),
      humidity_qty := w.humidity.map (fun m => m.qty),
      humidity_units := w.humidity.map (fun m => m.units),
      intensity_qty := w.intensity.map (fun m => m.qty),
      intensity_units := w.intensity.map (fun m => m.units),
      metadata := w.metadata }

/-- The `INSERT INTO route_points ...` of `store_workout` (`database.py`
lines 174-193): every point field is a direct index, raising when absent. -/
def routeRowOf (wid : String) (p : RoutePointPayload) : Option DbRouteRow := do
  let ts ← req p.timestamp
  let la ← req p.latitude
  let lo ← req p.longitude
  let al ← req p.altitude
  let sp ← req p.speed
  let sa ← req p.speedAccuracy
  let co ← req p.course
  let ca ← req p.courseAccuracy
  let ha ← req p.horizontalAccuracy
  let va ← req p.verticalAccuracy
  some ⟨wid, ts, la, lo, al, sp, sa, co, ca, ha, va⟩

/-- The route-point loop of `store_workout`, executed inside the open
transaction: each point is staged in turn; the first failing point aborts
the whole transaction. -/
def insertRoutePoints (wid : String) (db : DB) :
    List RoutePointPayload → Option DB
  | [] => some db
  | p :: ps => do
    let row ← routeRowOf wid p
    insertRoutePoints wid { db with route_points := db.route_points ++ [row] } ps

/-- The body of the `with sqlite3.connect(...)` block of `store_workout`:
stage the workout row, then stage every route point, then commit. -/
def storeWorkoutTxn (db : DB) (w : WorkoutPayload) : Option DB := do
  let row ← workoutRowOf db.workouts w
  insertRoutePoints row.id { db with workouts := db.workouts ++ [row] } w.route

/-- `DatabaseManager.store_workout` (`database.py` lines 133-200): the
`with sqlite3.connect(...)` context manager commits the transaction when the
block finishes and rolls it back when anything inside raises; the
surrounding `try`/`except` then logs and returns `False`. So the call either
commits the staged transaction and returns `True`, or leaves the store
exactly as it was and returns `False`. -/
def store_workout (db : DB) (w : WorkoutPayload) : DB × Bool :=
  match storeWorkoutTxn db w with
  | some db2 => (db2, true)
  | none => (db, false)

/-- The response counters of `create_workout` (`api.py` lines 82-132). -/
structure ApiResponse where
  processed : Nat
  stored : Nat
  duplicates : Nat
  total_in_db : Nat
deriving DecidableEq, Repr

/-- The store loop of `create_workout` (`api.py` lines 90-101): every
payload workout goes through `store_workout`; a `True` return is counted as
stored, ANY `False` return — whatever its cause — increments the
`duplicates` counter. -/
def storeLoop (db : DB) (ws : List WorkoutPayload) : DB × Nat × Nat :=
  ws.foldl
    (fun acc w =>
      let step := store_workout acc.1 w
      (step.1, if step.2 then (acc.2.1 + 1, acc.2.2) else (acc.2.1, acc.2.2 + 1)))
    (db, 0, 0)

/-- `create_workout` (`api.py` lines 82-132): run the store loop and report
the counts together with the new table size. -/
def create_workout (db : DB) (ws : List WorkoutPayload) : DB × ApiResponse :=
  let r := storeLoop db ws
  (r.1, ⟨ws.length, r.2.1, r.2.2, r.1.workouts.length⟩)

/-! ## Sample data used by concrete witnesses and counterexamples -/

/-- A stored workout row. -/
def w0 : PRow :=
  ⟨"Outdoor Run", ⟨2024, 1, 1, 8, 0, 0⟩, ⟨2024, 1, 1, 9, 0, 0⟩,
    some 800, 3600, some 6⟩

/-- A row with the same start time and activity type as `w0` but every
other field different. -/
def r0 : PRow :=
  ⟨"Outdoor Run", ⟨2024, 1, 1, 8, 0, 0⟩, ⟨2024, 1, 1, 10, 0, 0⟩,
    none, 7200, none⟩

/-- A raw CSV row on which every conversion succeeds. -/
def goodRow : RawRow :=
  ⟨("2024-01-01 08:00:00").toList, ("2024-01-01 09:00:00").toList,
    "Outdoor Run", ("1:00:00").toList, ("6.2").toList, ("800").toList⟩

/-- A raw CSV row whose duration has a non-integer component. -/
def badRow : RawRow :=
  ⟨("2024-01-01 10:00:00").toList, ("2024-01-01 11:00:00").toList,
    "Outdoor Run", ("twenty:30").toList, ("3.1").toList, ("400").toList⟩

/-- A raw row whose distance and energy are non-numeric text. -/
def nanRow : RawRow :=
  ⟨("2024-02-02 07:00:00").toList, ("2024-02-02 07:09:30").toList,
    "Yoga", ("0:09:30").toList, ("abc").toList, ("xyz").toList⟩

/-- `nanRow` normalized: absent distance, absent energy, absent pace. -/
def nanNorm : NormRow :=
  ⟨"Yoga", ⟨2024, 2, 2, 7, 0, 0⟩, ⟨2024, 2, 2, 7, 9, 30⟩, none, 570, none, none⟩

/-- A 30-minute, 3-mile run: duration 1800 s, distance 3.0 mi. -/
def row1800 : RawRow :=
  ⟨("2024-03-03 08:00:00").toList, ("2024-03-03 08:30:00").toList,
    "Outdoor Run", ("0:30:00").toList, ("3.0").toList, ("250").toList⟩

/-- `row1800` normalized; its pace is 10.00 min/mi. -/
def n1800 : NormRow :=
  ⟨"Outdoor Run", ⟨2024, 3, 3, 8, 0, 0⟩, ⟨2024, 3, 3, 8, 30, 0⟩,
    some 250, 1800, some 3, some 10⟩

/-- A file mixing one unparseable row with one good row. -/
def mixedFile : SrcFile := ⟨"mix.csv", [badRow, goodRow]⟩

/-- A prior external view with three rows. -/
def priorView : View :=
  [[Cell.str ("old1")], [Cell.str ("old2")], [Cell.str ("old3")]]

/-- A complete route point. -/
def ptOK : RoutePointPayload :=
  ⟨some "2024-01-01T08:00:05", some 40, some (-74), some 10, some 3,
    some 1, some 90, some 2, some 5, some 8⟩

/-- A route point with a missing `speed` key. -/
def ptBad : RoutePointPayload :=
  ⟨some "2024-01-01T08:00:05", some 40, some (-74), some 10, none,
    some 1, some 90, some 2, some 5, some 8⟩

/-- A complete payload workout. -/
def wA : WorkoutPayload :=
  ⟨some "id-A", some "Outdoor Run", some "2024-01-01T08:00:00",
    some "2024-01-01T09:00:00", some 3600, some "NY",
    some ⟨6, "mi"⟩, none, some ⟨800, "kcal"⟩, none, none, none, [ptOK], "{}"⟩

/-- A payload workout that reuses `wA`'s id (a primary-key collision). -/
def wB : WorkoutPayload :=
  ⟨some "id-A", some "Indoor Cycle", some "2024-02-01T08:00:00",
    some "2024-02-01T09:00:00", some 3600, some "NY",
    none, none, none, none, none, none, [], "{}"⟩

/-- A payload workout with a fresh id whose route has an incomplete point:
its `store_workout` failure is not a key collision. -/
def wC : WorkoutPayload :=
  ⟨some "id-C", some "Outdoor Run", some "2024-03-01T08:00:00",
    some "2024-03-01T09:00:00", some 3600, some "NY",
    none, none, none, none, none, none, [ptBad], "{}"⟩

/-- A complete payload workout sharing `wA`'s start time and activity type
but carrying a different id. -/
def wD : WorkoutPayload :=
  ⟨some "id-D", some "Outdoor Run", some "2024-01-01T08:00:00",
    some "2024-01-01T09:30:00", some 5400, some "LA",
    none, none, none, none, none, none, [], "{}"⟩

/-- The empty SQLite store. -/
def dbEmpty : DB := ⟨[], []⟩

/-- All ten fields of a route point are present. -/
abbrev completePoint (p : RoutePointPayload) : Prop :=
  p.timestamp.isSome ∧ p.latitude.isSome ∧ p.longitude.isSome
    ∧ p.altitude.isSome ∧ p.speed.isSome ∧ p.speedAccuracy.isSome
    ∧ p.course.isSome ∧ p.courseAccuracy.isSome
    ∧ p.horizontalAccuracy.isSome ∧ p.verticalAccuracy.isSome

/-- All required keys of a payload workout are present, and so are all the
fields of each of its route points. -/
abbrev completeWorkout (w : WorkoutPayload) : Prop :=
  w.id.isSome ∧ w.name.isSome ∧ w.start.isSome ∧ w.endT.isSome
    ∧ w.duration.isSome ∧ w.location.isSome ∧ ∀ p ∈ w.route, completePoint p

/-! ## Claims -/

/-- C1: if the store already contains a record with the same
`(startTime, activityType)` pair as `r`, then the dedupe-checked insert of
`data_pipeline.insert_workouts` returns not-inserted and leaves the store
(size and all records) unchanged, regardless of every other field of `r`.
In this sequential model the check and the insert form one atomic step
(they run inside the call's single transaction). -/
theorem C1_insert_if_absent (store : List PRow) (r w : PRow)
    (hw : w ∈ store) (hs : w.start = r.start) (hn : w.name = r.name) :
    insertStep store r = (store, false) := by
  have hx : store.any
      (fun x => decide (x.start = r.start) && decide (x.name = r.name)) = true :=
    List.any_eq_true.mpr ⟨w, hw, by simp [hs, hn]⟩
  simp [insertStep, hx]

/-- C1 witness: a store holding `w0`, and a record `r0` agreeing with `w0`
only on start time and activity type, is left unchanged. -/
theorem C1_insert_if_absent_witness : insertStep [w0] r0 = ([w0], false) :=
  C1_insert_if_absent [w0] r0 w0 (List.mem_singleton.mpr rfl) rfl rfl

/-- `paceOf` is `some` exactly on a present, strictly positive distance. -/
theorem paceOf_isSome_iff (du : Int) (di : Option ℚ) :
    (paceOf du di).isSome ↔ ∃ d, di = some d ∧ 0 < d := by
  cases di with
  | none => simp [paceOf]
  | some d =>
    by_cases h : 0 < d <;> simp [paceOf, h]

/-- Destructuring of a successful `normalizeRow`: the three fallible parses
succeeded and the record is built from their results. -/
theorem normalizeRow_sound (r : RawRow) (n : NormRow)
    (h : normalizeRow r = some n) :
    ∃ s e du, parseTimestamp r.rStart = some s
      ∧ parseTimestamp r.rEnd = some e
      ∧ parseDuration r.rDuration = some du
      ∧ n = ⟨r.rType, s, e, pyFloat r.rEnergy, du, pyFloat r.rDistance,
          paceOf du (pyFloat r.rDistance)⟩ := by
  unfold normalizeRow at h
  cases hs : parseTimestamp r.rStart with
  | none => rw [hs] at h; exact absurd h (by simp)
  | some s =>
    rw [hs] at h
    cases he : parseTimestamp r.rEnd with
    | none => rw [he] at h; exact absurd h (by simp)
    | some e =>
      rw [he] at h
      cases hd : parseDuration r.rDuration with
      | none => rw [hd] at h; exact absurd h (by simp)
      | some du =>
        rw [hd] at h
        exact ⟨s, e, du, rfl, rfl, rfl, (Option.some.inj h).symm⟩

/-- C3: in every normalized record, `paceMinPerMile` is present iff
`distanceMiles` is present and strictly positive, and when present it equals
`(durationSeconds / 60) / distanceMiles` rounded to 2 decimal places. A
record with an absent or non-positive distance gets no pace, whatever its
energy field holds. -/
theorem C3_pace_iff_distance (r : RawRow) (n : NormRow)
    (h : normalizeRow r = some n) :
    ((n.pace.isSome ↔ ∃ d, n.distance = some d ∧ 0 < d)
      ∧ ∀ d, n.distance = some d → 0 < d →
          n.pace = some (pyRound2 ((n.duration : ℚ) / 60 / d))) := by
  obtain ⟨s, e, du, hs, he, hd, hEq⟩ := normalizeRow_sound r n h
  have hp : n.pace = paceOf n.duration n.distance := by rw [hEq]
  refine ⟨hp ▸ paceOf_isSome_iff _ _, fun d hd2 h0 => ?_⟩
  rw [hp, hd2]
  simp [paceOf, h0]

unseal Rat.add Rat.mul Rat.inv Rat.sub in
/-- C3 witness: the 1800-second, 3.0-mile run normalizes with pace
`(1800/60)/3` rounded to two decimals, which is exactly 10.00. -/
theorem C3_pace_iff_distance_witness :
    n1800.pace = some (pyRound2 ((n1800.duration : ℚ) / 60 / 3))
    ∧ n1800.pace = some 10 := by
  constructor
  · exact (C3_pace_iff_distance row1800 n1800 (by decide)).2 3 (by decide) (by decide)
  · decide

/-- C8: a non-numeric distance or energy field degrades to an absent value
rather than aborting the record: normalization still succeeds (given the
timestamps and duration parse), the offending field is `none`, and a
non-numeric distance forces an absent pace as well. -/
theorem C8_nonnumeric_degrades (r : RawRow) (s e : DateTime) (dur : Int)
    (hs : parseTimestamp r.rStart = some s) (he : parseTimestamp r.rEnd = some e)
    (hd : parseDuration r.rDuration = some dur) :
    (pyFloat r.rDistance = none →
      normalizeRow r = some ⟨r.rType, s, e, pyFloat r.rEnergy, dur, none, none⟩)
    ∧ (pyFloat r.rEnergy = none →
      normalizeRow r =
        some ⟨r.rType, s, e, none, dur, pyFloat r.rDistance,
          paceOf dur (pyFloat r.rDistance)⟩) := by
  constructor <;> intro hnone <;> simp [normalizeRow, hs, he, hd, hnone, paceOf]

/-- C8 witness: the row with distance `"abc"` and energy `"xyz"` normalizes
to a record (no error) with absent distance, absent energy, absent pace. -/
theorem C8_nonnumeric_degrades_witness : normalizeRow nanRow = some nanNorm := by
  rw [(C8_nonnumeric_degrades nanRow ⟨2024, 2, 2, 7, 0, 0⟩ ⟨2024, 2, 2, 7, 9, 30⟩
    570 (by decide) (by decide) (by decide)).1 (by decide)]
  decide

/-- Writing on a cleared sheet yields exactly the written block. -/
theorem overwrite_nil_left (v : View) : overwrite [] v = v := by
  induction v with
  | nil => rfl
  | cons n ns ih => simp [overwrite, ih, overwriteRow]

/-- Overwriting a row twice with the same cells equals overwriting once. -/
theorem overwriteRow_absorb (n o : List Cell) :
    overwriteRow n (overwriteRow n o) = overwriteRow n o := by
  simp [overwriteRow]

/-- Writing an empty block changes nothing. -/
theorem overwrite_nil_right (p : View) : overwrite p [] = p := by
  cases p <;> rfl

/-- Overwriting a view twice with the same block equals overwriting once. -/
theorem overwrite_absorb (n : View) : ∀ p : View,
    overwrite (overwrite p n) n = overwrite p n := by
  induction n with
  | nil => intro p; simp [overwrite_nil_right]
  | cons r rs ih =>
    intro p
    cases p with
    | nil => simp [overwrite, overwriteRow, ih]
    | cons o os => simp [overwrite, overwriteRow_absorb, ih]

unseal Rat.add Rat.mul Rat.inv Rat.sub in
/-- C5 counterexample: with a three-row prior view and a single stored
record, `data_pipeline.update_google_sheets` (which writes at `A1` without
clearing) leaves a residual prior row, so the resulting view is not the
header-plus-records block and depends on the prior view state. -/
theorem C5_counterexample :
    update_google_sheets [w0] priorView ≠ renderSheet [w0]
    ∧ update_google_sheets [w0] priorView ≠ update_google_sheets [w0] [] := by
  constructor <;> decide

/-- C5 amended: `GoogleServices.update_sheet` clears before writing, so its
result is exactly the rendered block, independent of the prior view; and
publishing the same record set twice is idempotent for both variants —
but `data_pipeline.update_google_sheets` may retain residual prior rows
below the written block (see the counterexample). -/
theorem C5_publish_replace_and_idempotent (data prior prior2 : View)
    (store : List PRow) :
    update_sheet prior data = data
    ∧ update_sheet prior data = update_sheet prior2 data
    ∧ update_google_sheets store (update_google_sheets store prior) =
        update_google_sheets store prior := by
  refine ⟨?_, ?_, ?_⟩
  · simp [update_sheet, clearSheet, overwrite_nil_left]
  · simp [update_sheet, clearSheet]
  · simp [update_google_sheets, overwrite_absorb]

/-- C7 counterexample: a Mirror Publisher transport failure in
`process_workout_files` is not caught anywhere in the function, so the run
propagates the exception to the pipeline's caller. -/
theorem C7_counterexample :
    (process_workout_files [] [] [] false [⟨"a.csv", []⟩]).2.2 = some () := rfl

/-- C7 amended: the ingestion portion (counters, store, markers) completes
identically whatever the mirror transport does, a notify failure is caught
inside `send_email` and never propagates, but a mirror-publish failure does
propagate to the caller of `process_workout_files`. -/
theorem C7_transport_errors (store : List PRow) (markers : List (String × Nat))
    (prior : View) (files : List SrcFile) (sheetOk smtpOk : Bool) (out : String) :
    (process_workout_files store markers prior sheetOk files).1 =
      (process_workout_files store markers prior true files).1
    ∧ ((process_workout_files store markers prior sheetOk files).2.2 = none ↔
        sheetOk = true)
    ∧ ∃ log, send_email smtpOk out = Except.ok log := by
  refine ⟨?_, ?_, ?_⟩
  · cases sheetOk <;> rfl
  · cases sheetOk <;> simp [process_workout_files]
  · cases smtpOk <;> exact ⟨_, rfl⟩

/-- The split always produces at least one component. -/
theorem splitOnChar_shape (sep : Char) (s : List Char) :
    ∃ h t, splitOnChar sep s = h :: t := by
  cases s with
  | nil => exact ⟨[], [], rfl⟩
  | cons c cs =>
    by_cases hc : c = sep
    · exact ⟨[], splitOnChar sep cs, by simp [splitOnChar, hc]⟩
    · exact ⟨c :: (splitOnChar sep cs).headD [], (splitOnChar sep cs).tail,
        by simp [splitOnChar, hc]⟩

/-- Splitting after a separator-free prefix extends the first component. -/
theorem splitOnChar_append (sep : Char) (p s : List Char)
    (hp : ∀ c ∈ p, c ≠ sep) :
    splitOnChar sep (p ++ s) =
      (p ++ (splitOnChar sep s).headD []) :: (splitOnChar sep s).tail := by
  induction p with
  | nil =>
    obtain ⟨h, t, ht⟩ := splitOnChar_shape sep s
    simp [ht]
  | cons c p ih =>
    have hc : c ≠ sep := hp c (by simp)
    have ih2 := ih (fun x hx => hp x (by simp [hx]))
    simp [splitOnChar, hc, ih2]

/-- Splitting undoes joining, for nonempty colon-free component lists. -/
theorem splitOnColon_joinColon : ∀ (parts : List (List Char)),
    parts ≠ [] → (∀ p ∈ parts, (':') ∉ p) →
    splitOnColon (joinColon parts) = parts := by
  intro parts
  induction parts with
  | nil => intro hne _; exact absurd rfl hne
  | cons p ps ih =>
    intro _ hnc
    have hp : ∀ c ∈ p, c ≠ (':') := by
      intro c hc heq
      exact hnc p (by simp) (heq ▸ hc)
    cases ps with
    | nil =>
      have h := splitOnChar_append (':') p [] hp
      simpa [joinColon, splitOnColon, splitOnChar] using h
    | cons q qs =>
      have hrec := ih (by simp) (fun x hx => hnc x (List.mem_cons_of_mem p hx))
      have h := splitOnChar_append (':') p ((':') :: joinColon (q :: qs)) hp
      rw [show splitOnChar (':') ((':') :: joinColon (q :: qs)) =
            [] :: splitOnColon (joinColon (q :: qs)) by simp [splitOnChar, splitOnColon],
          hrec] at h
      simpa [joinColon, splitOnColon] using h

/-- `optMapM` succeeds pointwise. -/
theorem optMapM_some_of_forall₂ {α β : Type} (f : α → Option β)
    {l : List α} {l2 : List β}
    (h : List.Forall₂ (fun a b => f a = some b) l l2) : optMapM f l = some l2 := by
  induction h with
  | nil => rfl
  | cons hab _ ih => simp [optMapM, hab, ih]

/-- `optMapM` fails as soon as one element fails. -/
theorem optMapM_none_of_mem {α β : Type} (f : α → Option β) :
    ∀ (l : List α) (a : α), a ∈ l → f a = none → optMapM f l = none := by
  intro l
  induction l with
  | nil => intro a ha; exact absurd ha (List.not_mem_nil a)
  | cons b bs ih =>
    intro a ha hf
    rcases List.mem_cons.mp ha with h | h
    · subst h; simp [optMapM, hf]
    · cases hfb : f b <;> simp [optMapM, hfb, ih a h hf]

/-- A left-projection helper for `Forall₂` over a conjunction. -/
theorem forall₂_and_right {α β : Type} {Q : α → Prop} {R : α → β → Prop} :
    ∀ {l : List α} {l2 : List β},
    List.Forall₂ (fun a b => R a b ∧ Q a) l l2 → ∀ a ∈ l, Q a := by
  intro l l2 h
  induction h with
  | nil => intro a ha; exact absurd ha (List.not_mem_nil a)
  | cons hab _ ih =>
    intro a ha
    rcases List.mem_cons.mp ha with h | h
    · exact h ▸ hab.2
    · exact ih a h

/-- Appending a digitlike value to the reversed-positional sum. -/
theorem sumEnum_append (l : List Int) (v : Int) :
    sumEnum (l ++ [v]) = sumEnum l + v * 60 ^ l.length := by
  induction l with
  | nil => simp [sumEnum]
  | cons w l ih =>
    simp [sumEnum, ih, pow_succ]
    ring

/-- Horner evaluation of a base-60 numeral equals the positional sum over
the reversed digit list. -/
theorem foldl_base60 (vs : List Int) : ∀ a : Int,
    vs.foldl (fun a v => 60 * a + v) a = a * 60 ^ vs.length + sumEnum vs.reverse := by
  induction vs with
  | nil => intro a; simp [sumEnum]
  | cons v t ih =>
    intro a
    rw [List.foldl_cons, ih (60 * a + v), List.reverse_cons, sumEnum_append,
      List.length_reverse, List.length_cons, pow_succ]
    ring

/-- The source's enumerate-reversed sum is the spec's positional base-60
reading. -/
theorem posBase60_eq_sumEnum (vs : List Int) : posBase60 vs = sumEnum vs.reverse := by
  have h := foldl_base60 vs 0
  simpa [posBase60] using h

/-- C2: a duration string of colon-separated integer components parses as a
positional base-60 number — rightmost component is seconds, component `i`
from the right contributes `component * 60^i`, for components lists of any
length (`H:MM:SS` as `H*3600 + M*60 + S`, bare `MM:SS` likewise); in
particular `"0:09:30"` parses to 570; and a non-integer component makes the
whole parse fail. -/
theorem C2_duration_base60 :
    (∀ (parts : List (List Char)) (vs : List Int),
      parts ≠ [] →
      List.Forall₂ (fun p v => pyInt p = some v ∧ (':') ∉ p) parts vs →
      parseDuration (joinColon parts) = some (posBase60 vs))
    ∧ parseDuration (("0:09:30").toList) = some 570
    ∧ (∀ h m s : Int, posBase60 [h, m, s] = h * 3600 + m * 60 + s)
    ∧ (∀ (s p : List Char), p ∈ splitOnColon s → pyInt p = none →
        parseDuration s = none) := by
  refine ⟨?_, by decide, ?_, ?_⟩
  · intro parts vs hne hall
    have hnc : ∀ p ∈ parts, (':') ∉ p := forall₂_and_right hall
    have hsplit := splitOnColon_joinColon parts hne hnc
    have hmap : optMapM pyInt parts = some vs :=
      optMapM_some_of_forall₂ pyInt (hall.imp (fun _ _ h => h.1))
    simp only [parseDuration, hsplit, hmap]
    rw [posBase60_eq_sumEnum]
  · intro h m s
    simp [posBase60]
    ring
  · intro s p hp hnone
    simp only [parseDuration, optMapM_none_of_mem pyInt _ p hp hnone]

/-- C2 witness: joining the components `0`, `09`, `30` with colons and
parsing yields the positional base-60 value of `[0, 9, 30]`. -/
theorem C2_duration_base60_witness :
    parseDuration (joinColon [("0").toList, ("09").toList, ("30").toList]) =
      some (posBase60 [0, 9, 30]) := by
  apply C2_duration_base60.1
  · decide
  · exact List.Forall₂.cons (by decide)
      (List.Forall₂.cons (by decide)
        (List.Forall₂.cons (by decide) List.Forall₂.nil))

/-- The file-level skip check finds exactly the marked filenames. -/
theorem is_file_processed_iff (markers : List (String × Nat)) (n : String) :
    is_file_processed markers n = true ↔ n ∈ markers.map Prod.fst := by
  simp [is_file_processed, List.any_eq_true, List.mem_map]

/-- A folder whose files are all marked is only counted, never touched. -/
theorem fold_all_skipped (files : List SrcFile) : ∀ acc : RunAcc,
    (∀ f ∈ files, is_file_processed acc.markers f.fname = true) →
    files.foldl processOneFile acc =
      { acc with skipped := acc.skipped + files.length } := by
  induction files with
  | nil => intro acc _; simp
  | cons f fs ih =>
    intro acc h
    have hf : is_file_processed acc.markers f.fname = true := h f (by simp)
    rw [List.foldl_cons]
    have hstep : processOneFile acc f = { acc with skipped := acc.skipped + 1 } := by
      simp [processOneFile, hf]
    have ih2 := ih { acc with skipped := acc.skipped + 1 }
      (fun g hg => h g (List.mem_cons_of_mem f hg))
    have harith : acc.skipped + 1 + fs.length = acc.skipped + (f :: fs).length := by
      simp only [List.length_cons]
      omega
    rw [hstep, ih2, harith]

/-- C4: re-running the pipeline over a folder whose files are all present in
the processed-file markers inserts zero records, reports every file as
skipped (and none as processed), reads no file contents, and leaves the
workout store and the markers unchanged. -/
theorem C4_rerun_is_noop (store : List PRow) (markers : List (String × Nat))
    (prior : View) (sheetOk : Bool) (files : List SrcFile)
    (h : ∀ f ∈ files, f.fname ∈ markers.map Prod.fst) :
    (process_workout_files store markers prior sheetOk files).1.inserted = 0
    ∧ (process_workout_files store markers prior sheetOk files).1.skipped =
        files.length
    ∧ (process_workout_files store markers prior sheetOk files).1.processedCnt = 0
    ∧ (process_workout_files store markers prior sheetOk files).1.store = store
    ∧ (process_workout_files store markers prior sheetOk files).1.markers = markers
    ∧ (process_workout_files store markers prior sheetOk files).1.reads = [] := by
  have hacc := fold_all_skipped files ⟨store, markers, 0, 0, 0, [], []⟩
    (fun f hf => (is_file_processed_iff markers f.fname).mpr (h f hf))
  have hp1 : (process_workout_files store markers prior sheetOk files).1 =
      files.foldl processOneFile ⟨store, markers, 0, 0, 0, [], []⟩ := by
    cases sheetOk <;> rfl
  rw [hp1, hacc]
  exact ⟨rfl, by simp, rfl, rfl, rfl, rfl⟩

/-- C4 witness: a folder of two files whose names both appear in the
markers is skipped wholesale: nothing read, nothing inserted. -/
theorem C4_rerun_is_noop_witness :
    (process_workout_files [] [("a.csv", 1), ("b.csv", 1)] [] true
        [⟨"a.csv", [goodRow]⟩, ⟨"b.csv", [row1800]⟩]).1.inserted = 0
    ∧ (process_workout_files [] [("a.csv", 1), ("b.csv", 1)] [] true
        [⟨"a.csv", [goodRow]⟩, ⟨"b.csv", [row1800]⟩]).1.skipped = 2
    ∧ (process_workout_files [] [("a.csv", 1), ("b.csv", 1)] [] true
        [⟨"a.csv", [goodRow]⟩, ⟨"b.csv", [row1800]⟩]).1.processedCnt = 0
    ∧ (process_workout_files [] [("a.csv", 1), ("b.csv", 1)] [] true
        [⟨"a.csv", [goodRow]⟩, ⟨"b.csv", [row1800]⟩]).1.store = []
    ∧ (process_workout_files [] [("a.csv", 1), ("b.csv", 1)] [] true
        [⟨"a.csv", [goodRow]⟩, ⟨"b.csv", [row1800]⟩]).1.markers =
        [("a.csv", 1), ("b.csv", 1)]
    ∧ (process_workout_files [] [("a.csv", 1), ("b.csv", 1)] [] true
        [⟨"a.csv", [goodRow]⟩, ⟨"b.csv", [row1800]⟩]).1.reads = [] :=
  C4_rerun_is_noop [] [("a.csv", 1), ("b.csv", 1)] [] true
    [⟨"a.csv", [goodRow]⟩, ⟨"b.csv", [row1800]⟩] (by decide)

unseal Rat.add Rat.mul Rat.inv Rat.sub in
/-- C6 counterexample: a file containing one row with a malformed duration
and one perfectly good row is aborted wholesale: `insert_workouts` raises
for the whole file (while the good row alone would insert), the pipeline
catches the error at file level, and the good row is NOT inserted —
contradicting the claim that the remaining rows of the file are still
normalized and considered for insertion. -/
theorem C6_counterexample :
    insert_workouts [] [badRow, goodRow] = none
    ∧ insert_workouts [] [goodRow] =
        some ([⟨"Outdoor Run", ⟨2024, 1, 1, 8, 0, 0⟩, ⟨2024, 1, 1, 9, 0, 0⟩,
          some 800, 3600, some (31 / 5)⟩], 1)
    ∧ (process_workout_files [] [] [] true [mixedFile]).1.store = []
    ∧ (process_workout_files [] [] [] true [mixedFile]).1.inserted = 0
    ∧ (process_workout_files [] [] [] true [mixedFile]).1.errs = ["mix.csv"] := by
  exact ⟨by decide, by decide, by decide, by decide, by decide⟩

/-- C6 amended: a row whose timestamp or duration fails to parse is fatal to
its entire containing file — none of that file's rows are inserted, the file
is not marked processed, the error is caught and recorded at file level —
and the batch continues with the remaining files from an otherwise unchanged
state. -/
theorem C6_parse_error_aborts_file (acc : RunAcc) (f : SrcFile)
    (rest : List SrcFile)
    (hnew : is_file_processed acc.markers f.fname = false)
    (hbad : preprocess f.rows = none) :
    (f :: rest).foldl processOneFile acc =
      rest.foldl processOneFile
        { acc with
          processedCnt := acc.processedCnt + 1
          reads := acc.reads ++ [f.fname]
          errs := acc.errs ++ [f.fname] } := by
  rw [List.foldl_cons]
  congr 1
  simp [processOneFile, hnew, insert_workouts, hbad]

/-- C6 amended witness: the mixed file aborts wholesale and the next file is
still processed from the post-error state. -/
theorem C6_parse_error_aborts_file_witness :
    [mixedFile, ⟨"a.csv", [goodRow]⟩].foldl processOneFile ⟨[], [], 0, 0, 0, [], []⟩ =
      [(⟨"a.csv", [goodRow]⟩ : SrcFile)].foldl processOneFile
        ⟨[], [], 0, 1, 0, ["mix.csv"], ["mix.csv"]⟩ :=
  C6_parse_error_aborts_file ⟨[], [], 0, 0, 0, [], []⟩ mixedFile
    [⟨"a.csv", [goodRow]⟩] (by decide) (by decide)

/-- A successful route-point loop staged exactly the rows of all points. -/
theorem insertRoutePoints_sound (wid : String) :
    ∀ (ps : List RoutePointPayload) (db db2 : DB),
    insertRoutePoints wid db ps = some db2 →
    ∃ rows, optMapM (routeRowOf wid) ps = some rows
      ∧ db2.workouts = db.workouts
      ∧ db2.route_points = db.route_points ++ rows := by
  intro ps
  induction ps with
  | nil =>
    intro db db2 h
    have hdb : db = db2 := Option.some.inj h
    exact ⟨[], rfl, by rw [hdb], by rw [hdb]; simp⟩
  | cons p ps ih =>
    intro db db2 h
    unfold insertRoutePoints at h
    cases hr : routeRowOf wid p with
    | none => rw [hr] at h; exact absurd h (by simp)
    | some row =>
      rw [hr] at h
      obtain ⟨rows, hm, hw, hrp⟩ := ih _ db2 h
      refine ⟨row :: rows, by simp [optMapM, hr, hm], hw, ?_⟩
      rw [hrp]
      simp

/-- When every point converts, the route-point loop commits them all. -/
theorem insertRoutePoints_complete (wid : String) :
    ∀ (ps : List RoutePointPayload) (db : DB) (rows : List DbRouteRow),
    optMapM (routeRowOf wid) ps = some rows →
    insertRoutePoints wid db ps = some ⟨db.workouts, db.route_points ++ rows⟩ := by
  intro ps
  induction ps with
  | nil =>
    intro db rows h
    have hr : ([] : List DbRouteRow) = rows := Option.some.inj h
    rw [← hr]
    simp [insertRoutePoints]
  | cons p ps ih =>
    intro db rows h
    unfold optMapM at h
    cases hr : routeRowOf wid p with
    | none => rw [hr] at h; exact absurd h (by simp)
    | some row =>
      rw [hr] at h
      cases hm : optMapM (routeRowOf wid) ps with
      | none => rw [hm] at h; exact absurd h (by simp)
      | some rs =>
        rw [hm] at h
        have hrows : row :: rs = rows := Option.some.inj h
        rw [← hrows]
        unfold insertRoutePoints
        rw [hr]
        simp only [Option.bind_eq_bind, Option.some_bind]
        rw [ih { db with route_points := db.route_points ++ [row] } rs hm]
        simp

/-- A successful `optMapM` preserves length. -/
theorem optMapM_length {α β : Type} (f : α → Option β) :
    ∀ (l : List α) (l2 : List β), optMapM f l = some l2 → l2.length = l.length := by
  intro l
  induction l with
  | nil =>
    intro l2 h
    rw [← Option.some.inj h]
    rfl
  | cons a as ih =>
    intro l2 h
    unfold optMapM at h
    cases hf : f a with
    | none => rw [hf] at h; exact absurd h (by simp)
    | some b =>
      rw [hf] at h
      cases hm : optMapM f as with
      | none => rw [hm] at h; exact absurd h (by simp)
      | some bs =>
        rw [hm] at h
        rw [← Option.some.inj h]
        simp [ih bs hm]

/-- C9: `store_workout` is atomic per call: either the staged transaction
fails (for any cause, at any point — a missing required key, a primary-key
collision, or a failing route point) and the call returns `False` with the
store untouched, or the workout row together with the rows of ALL of its
route points are committed in one step and the call returns `True`. No
outcome commits the workout row with only part of its route. -/
theorem C9_store_workout_atomic (db : DB) (w : WorkoutPayload) :
    (store_workout db w = (db, false) ∧ storeWorkoutTxn db w = none)
    ∨ (∃ row rows, workoutRowOf db.workouts w = some row
        ∧ optMapM (routeRowOf row.id) w.route = some rows
        ∧ rows.length = w.route.length
        ∧ store_workout db w =
            (⟨db.workouts ++ [row], db.route_points ++ rows⟩, true)) := by
  cases ht : storeWorkoutTxn db w with
  | none => exact Or.inl ⟨by simp [store_workout, ht], rfl⟩
  | some db2 =>
    refine Or.inr ?_
    have ht0 := ht
    unfold storeWorkoutTxn at ht
    cases hr : workoutRowOf db.workouts w with
    | none => rw [hr] at ht; exact absurd ht (by simp)
    | some row =>
      rw [hr] at ht
      obtain ⟨rows, hm, hw, hrp⟩ := insertRoutePoints_sound row.id w.route _ db2 ht
      have hdb2 : db2 = ⟨db.workouts ++ [row], db.route_points ++ rows⟩ := by
        cases db2 with
        | mk ws rps =>
          simp only [DB.mk.injEq]
          exact ⟨hw, hrp⟩
      exact ⟨row, rows, rfl, hm, optMapM_length _ _ _ hm,
        by simp [store_workout, ht0, hdb2]⟩

/-- A complete route point always converts to a row. -/
theorem routeRowOf_complete (wid : String) (p : RoutePointPayload)
    (h : completePoint p) : ∃ r, routeRowOf wid p = some r := by
  obtain ⟨h1, h2, h3, h4, h5, h6, h7, h8, h9, h10⟩ := h
  obtain ⟨ts, hts⟩ := Option.isSome_iff_exists.mp h1
  obtain ⟨la, hla⟩ := Option.isSome_iff_exists.mp h2
  obtain ⟨lo, hlo⟩ := Option.isSome_iff_exists.mp h3
  obtain ⟨al, hal⟩ := Option.isSome_iff_exists.mp h4
  obtain ⟨sp, hsp⟩ := Option.isSome_iff_exists.mp h5
  obtain ⟨sa, hsa⟩ := Option.isSome_iff_exists.mp h6
  obtain ⟨co, hco⟩ := Option.isSome_iff_exists.mp h7
  obtain ⟨ca, hca⟩ := Option.isSome_iff_exists.mp h8
  obtain ⟨ha, hha⟩ := Option.isSome_iff_exists.mp h9
  obtain ⟨va, hva⟩ := Option.isSome_iff_exists.mp h10
  exact ⟨⟨wid, ts, la, lo, al, sp, sa, co, ca, ha, va⟩,
    by simp [routeRowOf, req, hts, hla, hlo, hal, hsp, hsa, hco, hca, hha, hva]⟩

/-- A route of complete points converts row by row. -/
theorem optMapM_routeRows (wid : String) :
    ∀ (ps : List RoutePointPayload), (∀ p ∈ ps, completePoint p) →
    ∃ rows, optMapM (routeRowOf wid) ps = some rows := by
  intro ps
  induction ps with
  | nil => intro _; exact ⟨[], rfl⟩
  | cons p ps ih =>
    intro h
    obtain ⟨r, hr⟩ := routeRowOf_complete wid p (h p (by simp))
    obtain ⟨rows, hrows⟩ := ih (fun q hq => h q (List.mem_cons_of_mem p hq))
    exact ⟨r :: rows, by simp [optMapM, hr, hrows]⟩

/-- A complete workout with a fresh id is stored whole and acknowledged. -/
theorem store_workout_success (db : DB) (w : WorkoutPayload) (i : String)
    (hc : completeWorkout w) (hid : w.id = some i)
    (hfresh : ∀ r ∈ db.workouts, r.id ≠ i) :
    ∃ row rows, store_workout db w =
      (⟨db.workouts ++ [row], db.route_points ++ rows⟩, true) ∧ row.id = i := by
  obtain ⟨h1, h2, h3, h4, h5, h6, h7⟩ := hc
  obtain ⟨nm, hnm⟩ := Option.isSome_iff_exists.mp h2
  obtain ⟨st, hst⟩ := Option.isSome_iff_exists.mp h3
  obtain ⟨en, hen⟩ := Option.isSome_iff_exists.mp h4
  obtain ⟨du, hdu⟩ := Option.isSome_iff_exists.mp h5
  obtain ⟨loc, hloc⟩ := Option.isSome_iff_exists.mp h6
  have hany : db.workouts.any (fun r => decide (r.id = i)) = false := by
    apply List.any_eq_false.mpr
    intro r hr
    simpa using hfresh r hr
  have hrow0 : workoutRowOf db.workouts w = some
      { id := i, name := nm, start := st, endT := en, duration := du,
        location := loc,
        distance_qty := w.distance.map (fun m => m.qty),
        distance_units := w.distance.map (fun m => m.units),
        elevation_up_qty := w.elevationUp.map (fun m => m.qty),
        elevation_up_units := w.elevationUp.map (fun m => m.units),
        energy_burned_qty := w.activeEnergyBurned.map (fun m => m.qty),
        energy_burned_units := w.activeEnergyBurned.map (fun m => m.units),
        temperature_qty := w.temperature.map (fun m => m.qty),
        temperature_units := w.temperature.map (fun m => m.units),
        humidity_qty := w.humidity.map (fun m => m.qty),
        humidity_units := w.humidity.map (fun m => m.units),
        intensity_qty := w.intensity.map (fun m => m.qty),
        intensity_units := w.intensity.map (fun m => m.units),
        metadata := w.metadata } := by
    unfold workoutRowOf req
    rw [hid, hnm, hst, hen, hdu, hloc]
    simp only [Option.bind_eq_bind, Option.some_bind, hany, Bool.false_eq_true, if_false]
  obtain ⟨row, hrow, hrid⟩ :
      ∃ row, workoutRowOf db.workouts w = some row ∧ row.id = i :=
    ⟨_, hrow0, rfl⟩
  obtain ⟨rows, hrows⟩ := optMapM_routeRows i w.route h7
  have hrows2 : optMapM (routeRowOf row.id) w.route = some rows := by
    rw [hrid]; exact hrows
  have htxn : storeWorkoutTxn db w =
      some ⟨db.workouts ++ [row], db.route_points ++ rows⟩ := by
    unfold storeWorkoutTxn
    rw [hrow]
    simp only [Option.bind_eq_bind, Option.some_bind]
    rw [insertRoutePoints_complete row.id w.route
      { db with workouts := db.workouts ++ [row] } rows hrows2]
  exact ⟨row, rows, by simp [store_workout, htxn], hrid⟩

/-- C10: in the webhook/API variant, uniqueness is enforced solely by the
workout's `id` primary key: two complete payload workouts with distinct
(fresh) ids are both stored even when they share the same start time and the
same activity-type name; and the response's `duplicates` counter increments
on every `store_workout` failure of any cause — both on the key collision
(`wB` reusing `wA`'s id) and on the route-point failure of the fresh-id
`wC`, whose rejection is not a key collision. -/
theorem C10_uniqueness_by_id_only :
    (∀ (db : DB) (w1 w2 : WorkoutPayload) (i1 i2 : String),
      completeWorkout w1 → completeWorkout w2 →
      w1.id = some i1 → w2.id = some i2 → i1 ≠ i2 →
      (∀ r ∈ db.workouts, r.id ≠ i1 ∧ r.id ≠ i2) →
      w1.start = w2.start → w1.name = w2.name →
      (store_workout db w1).2 = true
      ∧ (store_workout (store_workout db w1).1 w2).2 = true
      ∧ (store_workout (store_workout db w1).1 w2).1.workouts.length =
          db.workouts.length + 2)
    ∧ (create_workout dbEmpty [wA, wB, wC]).2.duplicates = 2
    ∧ (create_workout dbEmpty [wA, wB, wC]).2.stored = 1
    ∧ (store_workout (store_workout dbEmpty wA).1 wB).2 = false
    ∧ wC.id ≠ wA.id
    ∧ (store_workout (store_workout dbEmpty wA).1 wC).2 = false := by
  refine ⟨?_, by decide, by decide, by decide, by decide, by decide⟩
  intro db w1 w2 i1 i2 hc1 hc2 hi1 hi2 hne hfresh _hstart _hname
  obtain ⟨row1, rows1, hs1, hrid1⟩ :=
    store_workout_success db w1 i1 hc1 hi1 (fun r hr => (hfresh r hr).1)
  have hfresh2 : ∀ r ∈ (db.workouts ++ [row1]), r.id ≠ i2 := by
    intro r hr
    rcases List.mem_append.mp hr with h | h
    · exact (hfresh r h).2
    · rw [List.mem_singleton.mp h, hrid1]
      exact hne
  obtain ⟨row2, rows2, hs2, hrid2⟩ :=
    store_workout_success ⟨db.workouts ++ [row1], db.route_points ++ rows1⟩
      w2 i2 hc2 hi2 hfresh2
  rw [hs1]
  simp only at hs2 ⊢
  rw [hs2]
  simp [List.length_append]

/-- C10 witness: `wA` and `wD` share start time and activity type but carry
distinct ids; both are stored into the empty store. -/
theorem C10_uniqueness_by_id_only_witness :
    (store_workout dbEmpty wA).2 = true
    ∧ (store_workout (store_workout dbEmpty wA).1 wD).2 = true
    ∧ (store_workout (store_workout dbEmpty wA).1 wD).1.workouts.length =
        dbEmpty.workouts.length + 2 :=
  C10_uniqueness_by_id_only.1 dbEmpty wA wD ("id-A") ("id-D")
    (by decide) (by decide) (by decide) (by decide) (by decide)
    (by decide) (by decide) (by decide)

end WDP
